import Mathlib

/-!
# Verification of the shared-state / audit-log core

A shallow embedding of the persistence core of the API application:
the SQLite-backed `shared_state` and `update_logs` tables and the
operations `init_db`, `get_current_state`, `update_state`, `get_logs`
from `app/database.py`.

Rows are records, tables are lists kept in insertion order, the SQLite
`AUTOINCREMENT` counters are carried explicitly, and `CURRENT_TIMESTAMP`
is a `Nat` parameter supplied per call.  The transactional behaviour of
a connection (DML statements act on a pending snapshot that becomes
visible only at `commit`) is modelled by a small step machine `Conn` /
`DbOp` so that atomicity of `update_state` can be stated faithfully.
-/

/-- A row of the `shared_state` table. -/
structure StateRow where
  id : Nat
  counter : Int
  message : String
  updated_at : Nat
deriving Repr, DecidableEq

/-- A row of the `update_logs` table. -/
structure LogRow where
  id : Nat
  timestamp : Nat
  old_counter : Int
  new_counter : Int
  old_message : String
  new_message : String
  update_type : String
deriving Repr, DecidableEq

/-- The persistent store: both tables plus the `AUTOINCREMENT` counters. -/
structure Store where
  states : List StateRow
  logs : List LogRow
  nextStateId : Nat
  nextLogId : Nat
deriving Repr, DecidableEq

/-- A store with both tables empty, as after `CREATE TABLE` alone. -/
def emptyStore : Store := ⟨[], [], 1, 1⟩

/-- The value of the dict `{"counter": ..., "message": ...}` returned by reads. -/
structure StateDict where
  counter : Int
  message : String
deriving Repr, DecidableEq

/-- The four-value snapshot returned by `update_state`. -/
structure UpdateResult where
  old_counter : Int
  new_counter : Int
  old_message : String
  new_message : String
deriving Repr, DecidableEq

/-- The dict returned by `get_logs`. -/
structure LogsResponse where
  logs : List LogRow
  page : Nat
  limit : Nat
  total : Nat
  total_pages : Nat
deriving Repr, DecidableEq

/-- One fold step of `SELECT * FROM shared_state ORDER BY id DESC LIMIT 1`:
keep the row with the larger `id` (ids are unique, being a primary key). -/
def maxByIdStep (acc : Option StateRow) (r : StateRow) : Option StateRow :=
  match acc with
  | none => some r
  | some a => if a.id < r.id then some r else some a

/-- `SELECT * FROM shared_state ORDER BY id DESC LIMIT 1`: the row with the
maximal `id`, or `none` on an empty table. -/
def latestStateRow (rows : List StateRow) : Option StateRow :=
  rows.foldl maxByIdStep none

/-- `get_current_state` (app/database.py lines 58-68): the latest state row's
`counter`/`message`, or the `{counter: 0, message: ""}` default when the
table has no rows. -/
def get_current_state (s : Store) : StateDict :=
  match latestStateRow s.states with
  | some row => ⟨row.counter, row.message⟩
  | none => ⟨0, ""⟩

/-- `init_db` (app/database.py lines 18-55).  `CREATE TABLE IF NOT EXISTS`
is a no-op in the model (a `Store` always has both tables); if the state
table is empty one row `(counter=0, message='')` is inserted, its
`updated_at` defaulting to the current time. -/
def init_db (now : Nat) (s : Store) : Store :=
  if s.states.length = 0 then
    { s with
      states := s.states ++ [⟨s.nextStateId, 0, "", now⟩]
      nextStateId := s.nextStateId + 1 }
  else s

/-- The `UPDATE shared_state SET counter = ?, message = ?, updated_at =
CURRENT_TIMESTAMP WHERE id = (SELECT id FROM shared_state ORDER BY id DESC
LIMIT 1)` statement: rewrite the row(s) whose id the subquery selects;
when the table is empty the subquery yields NULL and no row matches. -/
def updateLatestRow (rows : List StateRow) (c : Int) (m : String) (now : Nat) :
    List StateRow :=
  match latestStateRow rows with
  | none => rows
  | some r =>
    rows.map fun x =>
      if x.id = r.id then { x with counter := c, message := m, updated_at := now }
      else x

/-- The `update_type` value: names of the fields present in the request,
counter checked before message, joined with `", "`. -/
def updateTypeStr (c : Option Int) (m : Option String) : String :=
  String.intercalate ", "
    ((if c.isSome then ["counter"] else []) ++ (if m.isSome then ["message"] else []))

/-- A DML statement as executed on an open connection. -/
inductive DbOp where
  | readState
  | updateRow (c : Int) (m : String) (now : Nat)
  | insertLog (ts : Nat) (oc nc : Int) (om nm : String) (ut : String)
  | commit
deriving Repr, DecidableEq

/-- An open SQLite connection: the committed store visible to other
connections, and the pending state this transaction has built up.
Closing without commit rolls back, leaving `base` as the visible store. -/
structure Conn where
  base : Store
  pending : Store
deriving Repr, DecidableEq

/-- Execute one statement.  Only `commit` publishes the pending state. -/
def applyOp (conn : Conn) : DbOp → Conn
  | .readState => conn
  | .updateRow c m now =>
    { conn with pending :=
      { conn.pending with states := updateLatestRow conn.pending.states c m now } }
  | .insertLog ts oc nc om nm ut =>
    { conn with pending :=
      { conn.pending with
        logs := conn.pending.logs ++
          [⟨conn.pending.nextLogId, ts, oc, nc, om, nm, ut⟩]
        nextLogId := conn.pending.nextLogId + 1 } }
  | .commit => { conn with base := conn.pending }

/-- Run a list of statements on a connection. -/
def runOps (conn : Conn) (ops : List DbOp) : Conn :=
  ops.foldl applyOp conn

/-- The statements `update_state` executes, in order (app/database.py
lines 71-107): read the current row, rewrite it with the coalesced
values, insert the log row, commit. -/
def update_state_ops (s : Store) (c : Option Int) (m : Option String)
    (now : Nat) : List DbOp :=
  let old := get_current_state s
  let nc := c.getD old.counter
  let nm := m.getD old.message
  [DbOp.readState, DbOp.updateRow nc nm now,
   DbOp.insertLog now old.counter nc old.message nm (updateTypeStr c m),
   DbOp.commit]

/-- `update_state` (app/database.py lines 71-114): run the statements on a
fresh connection and return the visible store plus the snapshot dict. -/
def update_state (s : Store) (c : Option Int) (m : Option String)
    (now : Nat) : Store × UpdateResult :=
  let old := get_current_state s
  let nc := c.getD old.counter
  let nm := m.getD old.message
  ((runOps ⟨s, s⟩ (update_state_ops s c m now)).base,
   ⟨old.counter, nc, old.message, nm⟩)

/-- The store visible after `update_state` fails just before its `k`-th
statement: the first `k` statements ran, then the connection was closed
without commit, rolling the transaction back to `base`. -/
def update_state_failAt (s : Store) (c : Option Int) (m : Option String)
    (now : Nat) (k : Nat) : Store :=
  (runOps ⟨s, s⟩ ((update_state_ops s c m now).take k)).base

/-- `ORDER BY timestamp DESC`: newer timestamps first. -/
def tsDesc (a b : LogRow) : Prop := b.timestamp ≤ a.timestamp

instance : DecidableRel tsDesc := fun a b => Nat.decLe b.timestamp a.timestamp

instance : IsTotal LogRow tsDesc :=
  ⟨fun a b => Nat.le_total b.timestamp a.timestamp⟩

instance : IsTrans LogRow tsDesc :=
  ⟨fun _ _ _ h1 h2 => Nat.le_trans h2 h1⟩

/-- The log table sorted by `timestamp` descending, ties in an
unspecified (here: stable) relative order. -/
def sortedLogs (s : Store) : List LogRow := List.insertionSort tsDesc s.logs

/-- `SELECT COUNT(*) FROM update_logs`. -/
def countLogs (s : Store) : Nat := s.logs.length

/-- `get_logs` (app/database.py lines 117-159): count, pagination
arithmetic, and the `LIMIT ? OFFSET ?` window over the sorted logs. -/
def get_logs (s : Store) (page : Nat) (limit : Nat) : LogsResponse :=
  let total := countLogs s
  let offset := (page - 1) * limit
  let total_pages := if total > 0 then (total + limit - 1) / limit else 1
  { logs := ((sortedLogs s).drop offset).take limit
    page := page
    limit := limit
    total := total
    total_pages := total_pages }

/-- `get_current_state` run through the connection machine: it executes
only a SELECT and closes without commit. -/
def get_current_state_run (s : Store) : Store × StateDict :=
  let conn := runOps ⟨s, s⟩ [DbOp.readState]
  (conn.base, get_current_state conn.pending)

/-- `get_logs` run through the connection machine: COUNT and SELECT only,
closed without commit. -/
def get_logs_run (s : Store) (page : Nat) (limit : Nat) : Store × LogsResponse :=
  let conn := runOps ⟨s, s⟩ [DbOp.readState, DbOp.readState]
  (conn.base, get_logs conn.pending page limit)

/-- A sequence of `update_state` calls, each with its own arguments and
call time. -/
def applyUpdates (s : Store) (calls : List (Option Int × Option String × Nat)) :
    Store :=
  calls.foldl (fun st o => (update_state st o.1 o.2.1 o.2.2).1) s

example : get_current_state emptyStore = ⟨0, ""⟩ := rfl
example : (init_db 7 emptyStore).states = [⟨1, 0, "", 7⟩] := rfl
example :
    (update_state (init_db 0 emptyStore) (some 9) none 3).2 =
      ⟨0, 9, "", ""⟩ := rfl
example :
    ((update_state (init_db 0 emptyStore) (some 9) none 3).1.logs.map
      (·.update_type)) = ["counter"] := rfl
example : updateTypeStr (some 1) (some "x") = "counter, message" := rfl
example : updateTypeStr none none = "" := rfl
example :
    get_current_state (update_state (init_db 0 emptyStore) (some 9) none 3).1 =
      ⟨9, ""⟩ := rfl

/-! ## Helper lemmas -/

theorem maxByIdStep_map (f : StateRow → StateRow) (hf : ∀ x, (f x).id = x.id)
    (acc : Option StateRow) (r : StateRow) :
    maxByIdStep (acc.map f) (f r) = (maxByIdStep acc r).map f := by
  cases acc with
  | none => rfl
  | some a =>
    simp only [maxByIdStep, Option.map_some', hf]
    by_cases h : a.id < r.id <;> simp [h]

theorem foldl_maxByIdStep_map (f : StateRow → StateRow)
    (hf : ∀ x, (f x).id = x.id) :
    ∀ (rows : List StateRow) (acc : Option StateRow),
      (rows.map f).foldl maxByIdStep (acc.map f) =
        (rows.foldl maxByIdStep acc).map f := by
  intro rows
  induction rows with
  | nil => intro acc; rfl
  | cons r rest ih =>
    intro acc
    simp only [List.map_cons, List.foldl_cons]
    rw [maxByIdStep_map f hf acc r]
    exact ih (maxByIdStep acc r)

theorem latestStateRow_map (f : StateRow → StateRow)
    (hf : ∀ x, (f x).id = x.id) (rows : List StateRow) :
    latestStateRow (rows.map f) = (latestStateRow rows).map f := by
  have h := foldl_maxByIdStep_map f hf rows none
  simpa [latestStateRow] using h

theorem maxByIdStep_eq_some (acc : Option StateRow) (y : StateRow) :
    ∃ b, maxByIdStep acc y = some b := by
  cases acc with
  | none => exact ⟨y, rfl⟩
  | some a =>
    simp only [maxByIdStep]
    by_cases h : a.id < y.id
    · exact ⟨y, by simp [h]⟩
    · exact ⟨a, by simp [h]⟩

theorem maxByIdStep_spec (acc : Option StateRow) (y b : StateRow)
    (h : maxByIdStep acc y = some b) :
    (acc = some b ∨ b = y) ∧ y.id ≤ b.id ∧ ∀ a, acc = some a → a.id ≤ b.id := by
  cases acc with
  | none =>
    cases h
    exact ⟨Or.inr rfl, Nat.le_refl _, by intro a ha; cases ha⟩
  | some a =>
    simp only [maxByIdStep] at h
    by_cases hlt : a.id < y.id
    · rw [if_pos hlt] at h
      cases h
      exact ⟨Or.inr rfl, Nat.le_refl _,
        by intro a' ha'; cases ha'; exact Nat.le_of_lt hlt⟩
    · rw [if_neg hlt] at h
      cases h
      exact ⟨Or.inl rfl, Nat.le_of_not_lt hlt,
        by intro a' ha'; cases ha'; exact Nat.le_refl _⟩

theorem foldl_maxByIdStep_spec :
    ∀ (rows : List StateRow) (acc : Option StateRow) (r : StateRow),
      rows.foldl maxByIdStep acc = some r →
      (acc = some r ∨ r ∈ rows) ∧
      (∀ a, acc = some a → a.id ≤ r.id) ∧
      (∀ x ∈ rows, x.id ≤ r.id) := by
  intro rows
  induction rows with
  | nil =>
    intro acc r h
    refine ⟨Or.inl h, ?_, by simp⟩
    intro a ha
    rw [ha] at h
    cases h
    exact Nat.le_refl _
  | cons y rest ih =>
    intro acc r h
    simp only [List.foldl_cons] at h
    obtain ⟨hmem, hacc', hrest⟩ := ih (maxByIdStep acc y) r h
    obtain ⟨b, hb⟩ := maxByIdStep_eq_some acc y
    obtain ⟨hbsrc, hyb, haccb⟩ := maxByIdStep_spec acc y b hb
    have hbr : b.id ≤ r.id := hacc' b hb
    refine ⟨?_, ?_, ?_⟩
    · rcases hmem with hm | hm
      · rw [hb] at hm
        cases hm
        rcases hbsrc with hs | hs
        · exact Or.inl hs
        · exact Or.inr (hs ▸ List.mem_cons_self _ _)
      · exact Or.inr (List.mem_cons_of_mem _ hm)
    · intro a ha
      exact Nat.le_trans (haccb a ha) hbr
    · intro x hx
      rcases List.mem_cons.mp hx with hx | hx
      · exact hx ▸ Nat.le_trans hyb hbr
      · exact hrest x hx

theorem latestStateRow_spec (rows : List StateRow) (r : StateRow)
    (h : latestStateRow rows = some r) :
    r ∈ rows ∧ ∀ x ∈ rows, x.id ≤ r.id := by
  obtain ⟨hmem, _, hmax⟩ := foldl_maxByIdStep_spec rows none r h
  rcases hmem with hm | hm
  · cases hm
  · exact ⟨hm, hmax⟩

theorem latestStateRow_isSome (rows : List StateRow) (hne : rows ≠ []) :
    (latestStateRow rows).isSome := by
  cases rows with
  | nil => exact absurd rfl hne
  | cons y rest =>
    show (List.foldl maxByIdStep (maxByIdStep none y) rest).isSome
    clear hne
    induction rest generalizing y with
    | nil => rfl
    | cons z rest ih =>
      simp only [List.foldl_cons]
      obtain ⟨b, hb⟩ := maxByIdStep_eq_some (maxByIdStep none y) z
      have : maxByIdStep none b = some b := rfl
      calc (List.foldl maxByIdStep (maxByIdStep (maxByIdStep none y) z) rest).isSome
          = (List.foldl maxByIdStep (maxByIdStep none b) rest).isSome := by
            rw [hb, this]
        _ = true := by rw [ih b]

/-- `update_state` unfolded: the committed store and the returned snapshot
in terms of the input store. -/
theorem update_state_eq (s : Store) (c : Option Int) (m : Option String)
    (now : Nat) :
    update_state s c m now =
      ({ s with
          states := updateLatestRow s.states
            (c.getD (get_current_state s).counter)
            (m.getD (get_current_state s).message) now
          logs := s.logs ++
            [⟨s.nextLogId, now, (get_current_state s).counter,
              c.getD (get_current_state s).counter,
              (get_current_state s).message,
              m.getD (get_current_state s).message, updateTypeStr c m⟩]
          nextLogId := s.nextLogId + 1 },
       ⟨(get_current_state s).counter, c.getD (get_current_state s).counter,
        (get_current_state s).message, m.getD (get_current_state s).message⟩) :=
  rfl

/-- Characterisation of the `(total + limit - 1) / limit` rounding-up
division: for positive `total` and `limit` it is the least number of pages
covering all entries. -/
theorem ceil_div_char (t l : Nat) (hl : 0 < l) (ht : 0 < t) :
    t ≤ ((t + l - 1) / l) * l ∧ (((t + l - 1) / l) - 1) * l < t := by
  have e := Nat.div_add_mod (t + l - 1) l
  have hr : (t + l - 1) % l < l := Nat.mod_lt _ hl
  constructor
  · rw [Nat.mul_comm]
    set A := l * ((t + l - 1) / l) with hA
    omega
  · rw [Nat.sub_mul, Nat.one_mul, Nat.mul_comm]
    set A := l * ((t + l - 1) / l) with hA
    omega

theorem latestStateRow_updateLatestRow (rows : List StateRow) (r : StateRow)
    (hr : latestStateRow rows = some r) (c : Int) (m : String) (now : Nat) :
    latestStateRow (updateLatestRow rows c m now) =
      some { r with counter := c, message := m, updated_at := now } := by
  unfold updateLatestRow
  rw [hr]
  have hf : ∀ x : StateRow,
      ((fun x : StateRow =>
        if x.id = r.id then { x with counter := c, message := m, updated_at := now }
        else x) x).id = x.id := by
    intro x
    by_cases h : x.id = r.id <;> simp [h]
  rw [latestStateRow_map _ hf rows, hr]
  simp

theorem updateTypeStr_cases (c : Option Int) (m : Option String) :
    updateTypeStr c m =
      match c, m with
      | some _, some _ => "counter, message"
      | some _, none => "counter"
      | none, some _ => "message"
      | none, none => "" := by
  cases c <;> cases m <;> rfl

/-- C1: a successful `update_state` with at least one field present merges
per field (requested value if present, else the current one), appends one
log row snapshotting both fields before and after with `update_type` the
names of the present fields (counter before message, joined by `", "`),
and returns the four-value snapshot. -/
theorem applyUpdate_merge_C1 (s : Store) (c : Option Int) (m : Option String)
    (now : Nat) (r : StateRow)
    (hr : latestStateRow s.states = some r) (hp : c.isSome ∨ m.isSome) :
    get_current_state (update_state s c m now).1 =
      ⟨c.getD r.counter, m.getD r.message⟩ ∧
    (update_state s c m now).1.logs = s.logs ++
      [⟨s.nextLogId, now, r.counter, c.getD r.counter, r.message,
        m.getD r.message,
        match c, m with
        | some _, some _ => "counter, message"
        | some _, none => "counter"
        | none, some _ => "message"
        | none, none => ""⟩] ∧
    (update_state s c m now).2 =
      ⟨r.counter, c.getD r.counter, r.message, m.getD r.message⟩ := by
  have hcur : get_current_state s = ⟨r.counter, r.message⟩ := by
    unfold get_current_state
    rw [hr]
  refine ⟨?_, ?_, ?_⟩
  · have h2 := latestStateRow_updateLatestRow s.states r hr
      (c.getD r.counter) (m.getD r.message) now
    show get_current_state
      (update_state s c m now).1 = _
    rw [update_state_eq, hcur]
    unfold get_current_state
    simp only [h2]
  · rcases c with _ | cv <;> rcases m with _ | mv <;>
      (rw [update_state_eq, hcur]; rfl)
  · rw [update_state_eq, hcur]

/-- Witness for C1 at state `{counter:5, message:"hi"}` and the request
`{counter:9}`. -/
theorem applyUpdate_merge_C1_witness :
    latestStateRow (⟨[⟨1, 5, "hi", 0⟩], [], 2, 1⟩ : Store).states =
      some ⟨1, 5, "hi", 0⟩ ∧
    ((some 9 : Option Int).isSome ∨ (none : Option String).isSome) ∧
    (get_current_state
        (update_state ⟨[⟨1, 5, "hi", 0⟩], [], 2, 1⟩ (some 9) none 3).1 =
      ⟨9, "hi"⟩ ∧
    (update_state ⟨[⟨1, 5, "hi", 0⟩], [], 2, 1⟩ (some 9) none 3).1.logs =
      [] ++ [⟨1, 3, 5, 9, "hi", "hi", "counter"⟩] ∧
    (update_state ⟨[⟨1, 5, "hi", 0⟩], [], 2, 1⟩ (some 9) none 3).2 =
      ⟨5, 9, "hi", "hi"⟩) :=
  ⟨rfl, Or.inl rfl,
    applyUpdate_merge_C1 ⟨[⟨1, 5, "hi", 0⟩], [], 2, 1⟩ (some 9) none 3
      ⟨1, 5, "hi", 0⟩ rfl (Or.inl rfl)⟩

/-- C9: calling `update_state` with both fields absent leaves the stored
values unchanged, still appends one log row whose `update_type` is the
empty string, and returns a snapshot with old equal to new in both
fields. -/
theorem bothAbsent_update_C9 (s : Store) (now : Nat) (r : StateRow)
    (hr : latestStateRow s.states = some r) :
    get_current_state (update_state s none none now).1 = get_current_state s ∧
    (update_state s none none now).1.logs = s.logs ++
      [⟨s.nextLogId, now, r.counter, r.counter, r.message, r.message, ""⟩] ∧
    (update_state s none none now).2.new_counter =
      (update_state s none none now).2.old_counter ∧
    (update_state s none none now).2.new_message =
      (update_state s none none now).2.old_message := by
  have hcur : get_current_state s = ⟨r.counter, r.message⟩ := by
    unfold get_current_state
    rw [hr]
  have h2 := latestStateRow_updateLatestRow s.states r hr r.counter r.message now
  refine ⟨?_, ?_, ?_, ?_⟩
  · show get_current_state (update_state s none none now).1 = _
    rw [update_state_eq, hcur]
    unfold get_current_state
    simp only [Option.getD_none, h2, hcur]
  · rw [update_state_eq, hcur]
    rfl
  · rfl
  · rfl

/-- Witness for C9 at state `{counter:5, message:"hi"}`. -/
theorem bothAbsent_update_C9_witness :
    latestStateRow (⟨[⟨1, 5, "hi", 0⟩], [], 2, 1⟩ : Store).states =
      some ⟨1, 5, "hi", 0⟩ ∧
    (get_current_state
        (update_state ⟨[⟨1, 5, "hi", 0⟩], [], 2, 1⟩ none none 4).1 =
      get_current_state ⟨[⟨1, 5, "hi", 0⟩], [], 2, 1⟩ ∧
    (update_state ⟨[⟨1, 5, "hi", 0⟩], [], 2, 1⟩ none none 4).1.logs =
      [] ++ [⟨1, 4, 5, 5, "hi", "hi", ""⟩] ∧
    (update_state ⟨[⟨1, 5, "hi", 0⟩], [], 2, 1⟩ none none 4).2.new_counter =
      (update_state ⟨[⟨1, 5, "hi", 0⟩], [], 2, 1⟩ none none 4).2.old_counter ∧
    (update_state ⟨[⟨1, 5, "hi", 0⟩], [], 2, 1⟩ none none 4).2.new_message =
      (update_state ⟨[⟨1, 5, "hi", 0⟩], [], 2, 1⟩ none none 4).2.old_message) :=
  ⟨rfl, bothAbsent_update_C9 ⟨[⟨1, 5, "hi", 0⟩], [], 2, 1⟩ 4 ⟨1, 5, "hi", 0⟩ rfl⟩

/-- C2: the state-write plus log-append inside `update_state` is atomic:
if the transaction fails before the commit statement (after 0, 1, 2 or 3
of its statements), the visible store is exactly the starting one; on
success the state rewrite and the appended log row are visible together. -/
theorem commitUpdate_atomic_C2 (s : Store) (c : Option Int) (m : Option String)
    (now : Nat) (k : Nat) (hk : k ≤ 3) :
    update_state_failAt s c m now k = s ∧
    (update_state s c m now).1 =
      { s with
        states := updateLatestRow s.states
          (c.getD (get_current_state s).counter)
          (m.getD (get_current_state s).message) now
        logs := s.logs ++
          [⟨s.nextLogId, now, (get_current_state s).counter,
            c.getD (get_current_state s).counter,
            (get_current_state s).message,
            m.getD (get_current_state s).message, updateTypeStr c m⟩]
        nextLogId := s.nextLogId + 1 } := by
  refine ⟨?_, rfl⟩
  interval_cases k <;> rfl

/-- Witness for C2: failure right between the state UPDATE and the log
INSERT (two statements ran) on a concrete store. -/
theorem commitUpdate_atomic_C2_witness :
    (2 ≤ 3) ∧
    update_state_failAt ⟨[⟨1, 5, "hi", 0⟩], [], 2, 1⟩ (some 9) none 3 2 =
      ⟨[⟨1, 5, "hi", 0⟩], [], 2, 1⟩ :=
  ⟨by decide,
    (commitUpdate_atomic_C2 ⟨[⟨1, 5, "hi", 0⟩], [], 2, 1⟩ (some 9) none 3 2
      (by decide)).1⟩

/-- C10: the read operations, run through the connection machine, leave
the visible store exactly as it was, and return the pure query results. -/
theorem reads_frame_C10 (s : Store) (page limit : Nat) :
    (get_current_state_run s).1 = s ∧
    (get_logs_run s page limit).1 = s ∧
    (get_current_state_run s).2 = get_current_state s ∧
    (get_logs_run s page limit).2 = get_logs s page limit :=
  ⟨rfl, rfl, rfl, rfl⟩

/-- C3: every successful `update_state` appends exactly one log row (also
for no-op updates), a sequence of `N` calls grows `countLogs` by exactly
`N`, and no core operation removes or mutates an existing log row
(`update_state` only appends, `init_db` and the reads leave the log table
unchanged). -/
theorem log_monotonic_C3 :
    (∀ (s : Store) (c : Option Int) (m : Option String) (now : Nat),
      ∃ row, (update_state s c m now).1.logs = s.logs ++ [row]) ∧
    (∀ (s : Store) (calls : List (Option Int × Option String × Nat)),
      countLogs (applyUpdates s calls) = countLogs s + calls.length) ∧
    (∀ (now : Nat) (s : Store), (init_db now s).logs = s.logs) ∧
    (∀ s : Store, (get_current_state_run s).1 = s) ∧
    (∀ (s : Store) (page limit : Nat), (get_logs_run s page limit).1 = s) := by
  refine ⟨fun s c m now => ⟨_, rfl⟩, ?_, ?_, fun _ => rfl, fun _ _ _ => rfl⟩
  · intro s calls
    induction calls generalizing s with
    | nil => rfl
    | cons o rest ih =>
      show countLogs (applyUpdates (update_state s o.1 o.2.1 o.2.2).1 rest) = _
      rw [ih]
      show (update_state s o.1 o.2.1 o.2.2).1.logs.length + rest.length = _
      rw [update_state_eq]
      simp only [List.length_append, List.length_cons, List.length_nil]
      show countLogs s + 1 + rest.length = countLogs s + (rest.length + 1)
      omega
  · intro now s
    unfold init_db
    split <;> rfl

/-- C8: `init_db` on an empty store inserts exactly one `(0, "")` state
row; on an already-initialised store it is a no-op, so consecutive calls
leave a single unchanged state row and an unchanged log table. -/
theorem init_idempotent_C8 (now : Nat) :
    (init_db now emptyStore).states = [⟨1, 0, "", now⟩] ∧
    (init_db now emptyStore).logs = [] ∧
    (∀ (s : Store) (now2 : Nat),
      init_db now2 (init_db now s) = init_db now s) ∧
    (∀ s : Store, s.states ≠ [] → init_db now s = s) := by
  have hno : ∀ (n : Nat) (s : Store), s.states ≠ [] → init_db n s = s := by
    intro n s h
    unfold init_db
    rw [if_neg fun hc => h (List.length_eq_zero.mp hc)]
  refine ⟨rfl, rfl, ?_, hno now⟩
  intro s now2
  by_cases h : s.states = []
  · have hne : (init_db now s).states ≠ [] := by
      unfold init_db
      rw [if_pos (by simp [h])]
      simp
    exact hno now2 _ hne
  · rw [hno now s h]
    exact hno now2 s h

/-- Witness for C8: a second initialisation is a no-op, both after a
fresh initialisation and on a hand-populated store. -/
theorem init_idempotent_C8_witness :
    init_db 5 (init_db 0 emptyStore) = init_db 0 emptyStore ∧
    ((⟨[⟨1, 0, "", 0⟩], [], 2, 1⟩ : Store).states ≠ [] ∧
      init_db 0 ⟨[⟨1, 0, "", 0⟩], [], 2, 1⟩ = ⟨[⟨1, 0, "", 0⟩], [], 2, 1⟩) :=
  ⟨(init_idempotent_C8 0).2.2.1 emptyStore 5,
    by decide,
    (init_idempotent_C8 0).2.2.2 ⟨[⟨1, 0, "", 0⟩], [], 2, 1⟩ (by decide)⟩

/-- C7: `get_current_state` returns the fields of the state row with the
largest `id` (a row of the table, maximal among them), and on an empty
table returns the `{counter: 0, message: ""}` default instead of
failing - a latest row exists whenever the table is nonempty. -/
theorem readCurrentState_C7 (s : Store) :
    (s.states = [] → get_current_state s = ⟨0, ""⟩) ∧
    (∀ r : StateRow, latestStateRow s.states = some r →
      get_current_state s = ⟨r.counter, r.message⟩ ∧ r ∈ s.states ∧
      ∀ x ∈ s.states, x.id ≤ r.id) ∧
    (s.states ≠ [] → (latestStateRow s.states).isSome) := by
  refine ⟨?_, ?_, latestStateRow_isSome s.states⟩
  · intro h
    unfold get_current_state latestStateRow
    rw [h]
    rfl
  · intro r hr
    obtain ⟨hm, hmax⟩ := latestStateRow_spec s.states r hr
    refine ⟨?_, hm, hmax⟩
    unfold get_current_state
    rw [hr]

/-- Witness for C7: the empty table yields the default, and on a
two-row table the row with the larger id is returned. -/
theorem readCurrentState_C7_witness :
    ((emptyStore.states = []) ∧ get_current_state emptyStore = ⟨0, ""⟩) ∧
    (latestStateRow (⟨[⟨1, 5, "hi", 0⟩, ⟨2, 7, "x", 1⟩], [], 3, 1⟩ : Store).states =
        some ⟨2, 7, "x", 1⟩ ∧
      get_current_state ⟨[⟨1, 5, "hi", 0⟩, ⟨2, 7, "x", 1⟩], [], 3, 1⟩ =
        ⟨7, "x"⟩) :=
  ⟨⟨rfl, (readCurrentState_C7 emptyStore).1 rfl⟩,
    ⟨rfl, ((readCurrentState_C7 ⟨[⟨1, 5, "hi", 0⟩, ⟨2, 7, "x", 1⟩], [], 3, 1⟩).2.1
      ⟨2, 7, "x", 1⟩ rfl).1⟩⟩

theorem sortedLogs_length (s : Store) : (sortedLogs s).length = countLogs s :=
  (List.perm_insertionSort tsDesc s.logs).length_eq

theorem get_logs_logs_pairwise (s : Store) (page limit : Nat) :
    List.Pairwise tsDesc (get_logs s page limit).logs := by
  have h1 : List.Pairwise tsDesc (sortedLogs s) :=
    List.sorted_insertionSort tsDesc s.logs
  exact List.Pairwise.sublist
    ((List.take_sublist _ _).trans (List.drop_sublist _ _)) h1

/-- C4: for `page ≥ 1` and `limit ∈ [1,100]`, `get_logs` reports the log
count as `total`, serves the window starting at `(page - 1) * limit` of the
timestamp-sorted logs (it returns `min limit (total - offset)` rows, the
`i`-th being entry `offset + i` of the sorted logs), and reports
`total_pages = 1` for an empty log and otherwise the least number of
pages of size `limit` covering all `total` entries, i.e.
`ceil(total / limit)`. -/
theorem pagination_arith_C4 (s : Store) (page limit : Nat)
    (hpage : 1 ≤ page) (hlim1 : 1 ≤ limit) (hlim2 : limit ≤ 100) :
    (get_logs s page limit).total = countLogs s ∧
    (get_logs s page limit).logs.length =
      min limit (countLogs s - (page - 1) * limit) ∧
    (countLogs s = 0 → (get_logs s page limit).total_pages = 1) ∧
    (0 < countLogs s →
      countLogs s ≤ (get_logs s page limit).total_pages * limit ∧
      ((get_logs s page limit).total_pages - 1) * limit < countLogs s) ∧
    (∀ (d : LogRow) (i : Nat), i < (get_logs s page limit).logs.length →
      (get_logs s page limit).logs.getD i d =
        (sortedLogs s).getD ((page - 1) * limit + i) d) := by
  refine ⟨rfl, ?_, ?_, ?_, ?_⟩
  · show (((sortedLogs s).drop ((page - 1) * limit)).take limit).length = _
    rw [List.length_take, List.length_drop, sortedLogs_length]
  · intro h
    show (if countLogs s > 0 then _ else 1) = 1
    rw [if_neg (by omega)]
  · intro h
    have hchar := ceil_div_char (countLogs s) limit hlim1 h
    have htp : (get_logs s page limit).total_pages =
        (countLogs s + limit - 1) / limit := by
      show (if countLogs s > 0 then _ else 1) = _
      rw [if_pos h]
    rw [htp]
    exact hchar
  · intro d i hi
    have hi2 : i <
        ((((sortedLogs s).drop ((page - 1) * limit))).take limit).length := hi
    have hi3 := hi2
    rw [List.length_take, List.length_drop] at hi3
    have hb : (page - 1) * limit + i < (sortedLogs s).length := by omega
    have e1 : (get_logs s page limit).logs.getD i d =
        ((((sortedLogs s).drop ((page - 1) * limit))).take limit).getD i d := rfl
    rw [e1, List.getD_eq_getElem _ d hi2, List.getD_eq_getElem _ d hb,
      List.getElem_take, List.getElem_drop]

/-- Witness for C4 on a one-row store at `page = 2`, `limit = 3`. -/
theorem pagination_arith_C4_witness :
    (1 ≤ 2 ∧ 1 ≤ 3 ∧ 3 ≤ 100) ∧
    (get_logs ⟨[⟨1, 0, "", 0⟩], [⟨1, 1, 0, 1, "", "", "counter"⟩], 2, 2⟩ 2 3).total =
      countLogs ⟨[⟨1, 0, "", 0⟩], [⟨1, 1, 0, 1, "", "", "counter"⟩], 2, 2⟩ ∧
    (get_logs ⟨[⟨1, 0, "", 0⟩], [⟨1, 1, 0, 1, "", "", "counter"⟩], 2, 2⟩ 2 3).logs.length =
      min 3 (countLogs ⟨[⟨1, 0, "", 0⟩], [⟨1, 1, 0, 1, "", "", "counter"⟩], 2, 2⟩ - (2 - 1) * 3) :=
  ⟨⟨by decide, by decide, by decide⟩,
    (pagination_arith_C4 ⟨[⟨1, 0, "", 0⟩], [⟨1, 1, 0, 1, "", "", "counter"⟩], 2, 2⟩ 2 3
      (by decide) (by decide) (by decide)).1,
    (pagination_arith_C4 ⟨[⟨1, 0, "", 0⟩], [⟨1, 1, 0, 1, "", "", "counter"⟩], 2, 2⟩ 2 3
      (by decide) (by decide) (by decide)).2.1⟩

/-- A store holding 15 log entries with distinct increasing timestamps. -/
def store15 : Store :=
  ⟨[⟨1, 0, "", 0⟩],
   (List.range 15).map
     (fun i => ⟨i + 1, i + 1, Int.ofNat i, Int.ofNat i + 1, "", "", "counter"⟩),
   2, 16⟩

/-- C5: a page past the last one is not an error: `get_logs` returns an
empty `logs` list with `total` and `total_pages` unaffected by the page
number; concretely with 15 entries and limit 10, page 1 has 10 rows,
page 2 has 5, page 3 has none, and `total_pages` is 2 throughout. -/
theorem out_of_range_page_C5 (s : Store) (page limit : Nat)
    (hpage : 1 ≤ page) (hlim1 : 1 ≤ limit) (hlim2 : limit ≤ 100)
    (hoff : countLogs s ≤ (page - 1) * limit) :
    (get_logs s page limit).logs = [] ∧
    (get_logs s page limit).total = countLogs s ∧
    (get_logs s page limit).total_pages = (get_logs s 1 limit).total_pages ∧
    ((get_logs store15 1 10).logs.length = 10 ∧
      (get_logs store15 1 10).total_pages = 2 ∧
      (get_logs store15 2 10).logs.length = 5 ∧
      (get_logs store15 3 10).logs.length = 0 ∧
      (get_logs store15 3 10).total = 15 ∧
      (get_logs store15 3 10).total_pages = 2) := by
  refine ⟨?_, rfl, rfl, by decide, by decide, by decide, by decide, by decide, by decide⟩
  show (((sortedLogs s).drop ((page - 1) * limit)).take limit) = []
  rw [List.drop_eq_nil_of_le (by rw [sortedLogs_length]; exact hoff)]
  exact List.take_nil

/-- Witness for C5: page 3 of the 15-entry store with limit 10. -/
theorem out_of_range_page_C5_witness :
    (1 ≤ 3 ∧ 1 ≤ 10 ∧ 10 ≤ 100 ∧ countLogs store15 ≤ (3 - 1) * 10) ∧
    (get_logs store15 3 10).logs = [] ∧
    (get_logs store15 3 10).total = countLogs store15 :=
  ⟨⟨by decide, by decide, by decide, by decide⟩,
    (out_of_range_page_C5 store15 3 10 (by decide) (by decide) (by decide)
      (by decide)).1,
    (out_of_range_page_C5 store15 3 10 (by decide) (by decide) (by decide)
      (by decide)).2.1⟩

/-- C6: `get_logs` results are ordered newest first: if the entry at
position `i` has a strictly older (smaller) timestamp than the entry at
position `j`, then `j` comes before `i`. -/
theorem logs_ordering_C6 (s : Store) (page limit : Nat) (d : LogRow)
    (i j : Nat)
    (hi : i < (get_logs s page limit).logs.length)
    (hj : j < (get_logs s page limit).logs.length)
    (hlt : ((get_logs s page limit).logs.getD i d).timestamp <
      ((get_logs s page limit).logs.getD j d).timestamp) :
    j < i := by
  have hpw := get_logs_logs_pairwise s page limit
  rw [List.getD_eq_getElem _ d hi, List.getD_eq_getElem _ d hj] at hlt
  rcases Nat.lt_trichotomy i j with h | h | h
  · have := List.pairwise_iff_getElem.mp hpw i j hi hj h
    exact absurd hlt (Nat.not_lt_of_le this)
  · subst h
    exact absurd hlt (Nat.lt_irrefl _)
  · exact h

/-- Witness for C6 on the 15-entry store: the entry at position 1 is
older than the one at position 0, and indeed 0 < 1. -/
theorem logs_ordering_C6_witness :
    (1 < (get_logs store15 1 10).logs.length ∧
      0 < (get_logs store15 1 10).logs.length ∧
      ((get_logs store15 1 10).logs.getD 1 ⟨0, 0, 0, 0, "", "", ""⟩).timestamp <
        ((get_logs store15 1 10).logs.getD 0 ⟨0, 0, 0, 0, "", "", ""⟩).timestamp) ∧
    0 < 1 :=
  ⟨⟨by decide, by decide, by decide⟩,
    logs_ordering_C6 store15 1 10 ⟨0, 0, 0, 0, "", "", ""⟩ 1 0
      (by decide) (by decide) (by decide)⟩
